import Mathlib

/-!
Verification of the Horner Bible reading plan generator
(`horner_readings.py`): a shallow embedding of its core logic —
chapter-list expansion, the ten-list modular daily selector, and the
persisted JSON bookmark state machine — together with theorems about
the embedded definitions.
-/

namespace Horner

/-! ## Data model

`BibleChapter` embeds the Python class of the same name.  The
constructor checks of `BibleChapter.__init__` (book must be non-empty,
chapter must not be the `-1` sentinel) are modelled by `mkBibleChapter`
returning `Except`.  Python integers are modelled as `Int`.
-/

structure BibleChapter where
  book : String
  chapter : Int
deriving Repr, DecidableEq

/-- Embeds `BibleChapter.__init__`: raises `ValueError` when `book == ""`
or when `chapter == -1` (the unspecified-argument sentinel); otherwise
stores the book and the chapter. -/
def mkBibleChapter (book : String) (chapter : Int) : Except String BibleChapter :=
  if book = "" then
    .error "BibleChapter() book must be specified"
  else if chapter = -1 then
    .error "BibleChapter() chapter must be specified"
  else
    .ok { book := book, chapter := chapter }

/-! ## Chapter Expander

`get_chapter_readings_from_yaml` iterates over configured items.  In
the source each item is the string `"<book>, <chapters>"`, split on
`", "` into a book name and an integer chapter count; the split result
is modelled here as the pair `(book, total_chapters)`.  The inner loop
`for chapter in range(1, total_chapters + 1)` appends
`BibleChapter(book, chapter)`; `range(1, n + 1)` is empty when `n < 1`,
which `Int.toNat` reproduces. -/

/-- The chapters `1, 2, ..., total` visited by
`range(1, total_chapters + 1)` (empty when `total < 1`). -/
def chapterRange (total : Int) : List Int :=
  (List.range total.toNat).map (fun (k : Nat) => (k : Int) + 1)

/-- A Python `for` loop that appends `f a` for each element, where the
first raised exception aborts the loop. -/
def mapExcept (f : α → Except String β) : List α → Except String (List β)
  | [] => .ok []
  | a :: as => do
    let b ← f a
    let bs ← mapExcept f as
    pure (b :: bs)

/-- Embeds the body of `get_chapter_readings_from_yaml` for one item:
append `BibleChapter(book, chapter)` for each chapter in the range,
propagating any constructor error. -/
def expandBook (book : String) (total : Int) : Except String (List BibleChapter) :=
  mapExcept (fun c => mkBibleChapter book c) (chapterRange total)

/-- Embeds `get_chapter_readings_from_yaml`: the outer loop over items,
accumulating every generated `BibleChapter` in order; a `ValueError`
raised by `BibleChapter.__init__` aborts the whole call. -/
def get_chapter_readings_from_yaml (items : List (String × Int)) :
    Except String (List BibleChapter) :=
  (mapExcept (fun item => expandBook item.1 item.2) items).map List.flatten

/-- The reference value for a fully valid item list: every
`Reading(book, c)` for each book in input order and each `c` from 1 to
its chapter count. -/
def expectedReadings (items : List (String × Int)) : List BibleChapter :=
  items.flatMap (fun item => (chapterRange item.2).map
    (fun c => { book := item.1, chapter := c }))

/-! Helper lemmas about the expander. -/

lemma mkBibleChapter_ok (book : String) (c : Int) (hb : book ≠ "") (hc : c ≠ -1) :
    mkBibleChapter book c = .ok { book := book, chapter := c } := by
  simp [mkBibleChapter, hb, hc]

lemma chapterRange_pos (total : Int) (c : Int) (hc : c ∈ chapterRange total) :
    1 ≤ c := by
  rcases List.mem_map.1 hc with ⟨k, hk, rfl⟩
  omega

lemma mapExcept_mkBibleChapter_ok (book : String) (hb : book ≠ "") :
    ∀ (cs : List Int), (∀ c ∈ cs, c ≠ -1) →
      mapExcept (fun c => mkBibleChapter book c) cs =
        .ok (cs.map (fun c => { book := book, chapter := c }))
  | [], _ => rfl
  | c :: cs, h => by
      have hc : c ≠ -1 := h c (List.mem_cons_self c cs)
      have ih := mapExcept_mkBibleChapter_ok book hb cs
        (fun x hx => h x (List.mem_cons_of_mem c hx))
      simp only [mapExcept, mkBibleChapter_ok book c hb hc, ih, List.map_cons]
      rfl

lemma expandBook_ok (book : String) (total : Int) (hb : book ≠ "") :
    expandBook book total =
      .ok ((chapterRange total).map (fun c => { book := book, chapter := c })) := by
  unfold expandBook
  exact mapExcept_mkBibleChapter_ok book hb (chapterRange total)
    (fun c hc => by have := chapterRange_pos total c hc; omega)

/-- Tests whether an `Except` result is a success. -/
def isOkB : Except String α → Bool
  | .ok _ => true
  | .error _ => false

lemma length_chapterRange (total : Int) : (chapterRange total).length = total.toNat := by
  simp [chapterRange]

lemma chapterRange_eq_nil (total : Int) (h : total < 1) : chapterRange total = [] := by
  have : total.toNat = 0 := Int.toNat_of_nonpos (by omega)
  simp [chapterRange, this]

lemma chapterRange_ne_nil (total : Int) (h : 1 ≤ total) : chapterRange total ≠ [] := by
  intro hnil
  have := length_chapterRange total
  rw [hnil] at this
  simp at this
  omega

lemma mapExcept_expandBook_ok (items : List (String × Int))
    (h : ∀ p ∈ items, p.1 ≠ "") :
    mapExcept (fun item => expandBook item.1 item.2) items =
      .ok (items.map (fun item => (chapterRange item.2).map
        (fun c => { book := item.1, chapter := c }))) := by
  induction items with
  | nil => rfl
  | cons p items ih =>
      have hp : p.1 ≠ "" := (h p (List.mem_cons_self p items))
      have ih2 := ih (fun q hq => h q (List.mem_cons_of_mem p hq))
      simp only [mapExcept, expandBook_ok p.1 p.2 hp, ih2, List.map_cons]
      rfl

lemma length_expectedReadings (items : List (String × Int))
    (h : ∀ p ∈ items, 1 ≤ p.2) :
    ((expectedReadings items).length : Int) = (items.map (fun p => p.2)).sum := by
  induction items with
  | nil => rfl
  | cons p items ih =>
      have hp : (1 : Int) ≤ p.2 := h p (List.mem_cons_self p items)
      have ih2 := ih (fun q hq => h q (List.mem_cons_of_mem p hq))
      have hto : ((p.2.toNat : Int)) = p.2 := Int.toNat_of_nonneg (by omega)
      simp only [expectedReadings, List.flatMap_cons, List.length_append,
        List.length_map, length_chapterRange, List.map_cons, List.sum_cons] at *
      push_cast
      omega

/-- C4: on a configuration whose book names are all non-empty and whose
chapter counts are all at least 1, `get_chapter_readings_from_yaml`
succeeds and returns exactly the enumeration of `Reading(book, c)` for
each book in input order and each `c` from 1 to its chapter count; the
output length is the sum of the chapter counts, and element `k` of a
book's contiguous run is `Reading(book, k + 1)`. -/
theorem chapter_expander_correct (items : List (String × Int))
    (h : ∀ p ∈ items, p.1 ≠ "" ∧ 1 ≤ p.2) :
    get_chapter_readings_from_yaml items = .ok (expectedReadings items) ∧
    ((expectedReadings items).length : Int) = (items.map (fun p => p.2)).sum ∧
    ∀ p ∈ items, ∀ k : Nat, k < p.2.toNat →
      ((chapterRange p.2).map
        (fun c => ({ book := p.1, chapter := c } : BibleChapter)))[k]? =
          some { book := p.1, chapter := (k : Int) + 1 } := by
  refine ⟨?_, ?_, ?_⟩
  · unfold get_chapter_readings_from_yaml
    rw [mapExcept_expandBook_ok items (fun p hp => (h p hp).1)]
    simp [Except.map, expectedReadings, List.flatMap]
  · exact length_expectedReadings items (fun p hp => (h p hp).2)
  · intro p _ k hk
    simp [chapterRange, List.getElem?_map, List.getElem?_range, hk]

/-- C4 witness: a two-book configuration expands to the concrete
chapter-by-chapter list. -/
theorem chapter_expander_correct_witness :
    get_chapter_readings_from_yaml [("Matthew", 2), ("Mark", 1)] =
      .ok [{ book := "Matthew", chapter := 1 }, { book := "Matthew", chapter := 2 },
           { book := "Mark", chapter := 1 }] := by
  have h := (chapter_expander_correct [("Matthew", 2), ("Mark", 1)] (by decide)).1
  rw [h]
  rfl

lemma mapExcept_cons_isOkB (f : α → Except String β) (a : α) (as : List α) :
    isOkB (mapExcept f (a :: as)) = (isOkB (f a) && isOkB (mapExcept f as)) := by
  cases hfa : f a <;> cases hrest : mapExcept f as <;>
    simp only [mapExcept, hfa, hrest, Bool.and_true, Bool.and_false] <;> rfl

lemma mkBibleChapter_empty (c : Int) :
    mkBibleChapter "" c = .error "BibleChapter() book must be specified" := rfl

lemma expandBook_empty_error (total : Int) (h : 1 ≤ total) :
    isOkB (expandBook "" total) = false := by
  unfold expandBook
  rcases hcs : chapterRange total with _ | ⟨c, cs⟩
  · exact absurd hcs (chapterRange_ne_nil total h)
  · rfl

lemma expandBook_isOkB (book : String) (total : Int) :
    isOkB (expandBook book total) = true ↔ ¬(book = "" ∧ 1 ≤ total) := by
  by_cases hb : book = ""
  · subst hb
    by_cases ht : 1 ≤ total
    · simp [expandBook_empty_error total ht, ht]
    · rw [show expandBook "" total = .ok [] from by
        unfold expandBook
        rw [chapterRange_eq_nil total (by omega)]
        rfl]
      simp [isOkB]
      omega
  · rw [expandBook_ok book total hb]
    simp [isOkB, hb]

lemma isOkB_map (e : Except String α) (f : α → β) : isOkB (e.map f) = isOkB e := by
  cases e <;> rfl

/-- C7, amended: `get_chapter_readings_from_yaml` fails exactly when
some input pair has an empty book name together with a chapter count of
at least 1; a pair with a non-positive chapter count alone never causes
a failure (its chapter loop is empty). -/
theorem chapter_expander_error_iff (items : List (String × Int)) :
    isOkB (get_chapter_readings_from_yaml items) = true ↔
      ∀ p ∈ items, ¬(p.1 = "" ∧ 1 ≤ p.2) := by
  unfold get_chapter_readings_from_yaml
  rw [isOkB_map]
  induction items with
  | nil => simp [mapExcept, isOkB]
  | cons p items ih =>
      rw [mapExcept_cons_isOkB]
      constructor
      · intro h q hq
        rcases Bool.and_eq_true_iff.1 h with ⟨h1, h2⟩
        rcases List.mem_cons.1 hq with rfl | hq2
        · exact (expandBook_isOkB q.1 q.2).1 h1
        · exact (ih.1 h2) q hq2
      · intro h
        refine Bool.and_eq_true_iff.2 ⟨?_, ?_⟩
        · exact (expandBook_isOkB p.1 p.2).2 (h p (List.mem_cons_self p items))
        · exact ih.2 (fun q hq => h q (List.mem_cons_of_mem p hq))

/-- C7 witness: a configuration with a non-empty book name and a
positive chapter count succeeds. -/
theorem chapter_expander_error_iff_witness :
    isOkB (get_chapter_readings_from_yaml [("Genesis", (3 : Int))]) = true :=
  (chapter_expander_error_iff [("Genesis", (3 : Int))]).2 (by decide)

/-- C7 counterexample: the claim says a chapter count below 1 makes the
expander fail, but on `[("Genesis", 0)]` the chapter loop is simply
empty and the call succeeds, producing an (empty) output sequence. -/
theorem chapter_expander_zero_count_no_error :
    get_chapter_readings_from_yaml [("Genesis", (0 : Int))] = .ok [] := rfl

/-! ## Bookmark Store

`JsonBookmark` persists `{day_index_number, last_updated, translation}`
in `~/.horner_bible_readings.json`.  Timestamps are modelled as epoch
seconds (`Int`); the calendar date printed by `arrow` before the `"T"`
separator corresponds to flooring the timestamp to its day number.
`args` holds the two inputs `update_bookmark` consults:
`args.translation` (the `-t` choice, `""` when absent) and
`args.save_settings` (the `-s` flag). -/

structure Args where
  translation : String
  save_settings : Bool
deriving Repr, DecidableEq

structure Bookmark where
  day_index_number : Nat
  last_updated : Int
  translation : String
deriving Repr, DecidableEq

/-- The calendar day holding epoch-second instant `t`: what survives of
a timestamp after `split("T")[0]` strips the time of day. -/
def dayOf (t : Int) : Int := Int.ediv t 86400

/-- Embeds lines 179–183 of `update_bookmark`:
`update_date = last_updated.split("T")[0]` keeps only the calendar day
of the stored timestamp, and `days = (now - arrow.get(update_date)).days`
floor-divides the signed interval from that day's midnight to `now` by
24 hours (Python `timedelta.days` floors). -/
def elapsed_days (now lastUpdated : Int) : Int :=
  Int.ediv (now - dayOf lastUpdated * 86400) 86400

/-- Embeds `JsonBookmark.create_bookmark`: raises a `ValueError` when no
translation was supplied, otherwise writes a fresh record with day
index 0, the current timestamp, and the requested translation. -/
def create_bookmark (args : Args) (now : Int) : Except String Bookmark :=
  if args.translation = "" then
    .error "Cannot save translation preferences without a translation.  Use -t from the CLI"
  else
    .ok { day_index_number := 0, last_updated := now, translation := args.translation }

/-- Embeds `JsonBookmark.update_bookmark`.  Returns the bookmark record
after the call, paired with `true` when the file was rewritten and
`false` when the record was left untouched. -/
def update_bookmark (args : Args) (bm : Bookmark) (now : Int) : Bookmark × Bool :=
  let days := elapsed_days now bm.last_updated
  if args.save_settings = true ∨ days > 0 then
    let bm1 :=
      if days > 0 then
        (if bm.day_index_number < 365 then
          { bm with day_index_number := bm.day_index_number + 1 }
        else
          { bm with day_index_number := 0 })
      else bm
    let bm2 :=
      if args.save_settings = true then { bm1 with translation := args.translation }
      else bm1
    ({ bm2 with last_updated := now }, true)
  else
    (bm, false)

lemma elapsed_days_eq (now lastUpdated : Int) :
    elapsed_days now lastUpdated = dayOf now - dayOf lastUpdated := by
  unfold elapsed_days dayOf
  show (now - lastUpdated / 86400 * 86400) / 86400 = now / 86400 - lastUpdated / 86400
  rw [show now - lastUpdated / 86400 * 86400 = now + -(lastUpdated / 86400) * 86400 from by
    ring]
  rw [Int.add_mul_ediv_right _ _ (by norm_num : (86400 : Int) ≠ 0)]
  ring

/-- C9: the computed `days` value equals the calendar-day difference
between `now` and the stored `last_updated`, ignoring the time of day
of both; it is 0 exactly when the two timestamps fall on the same
calendar day, and positive exactly when `now` falls on a later
calendar day. -/
theorem elapsed_days_calendar (now lastUpdated : Int) :
    elapsed_days now lastUpdated = dayOf now - dayOf lastUpdated ∧
    (elapsed_days now lastUpdated = 0 ↔ dayOf now = dayOf lastUpdated) ∧
    (0 < elapsed_days now lastUpdated ↔ dayOf lastUpdated < dayOf now) := by
  have h := elapsed_days_eq now lastUpdated
  refine ⟨h, ?_, ?_⟩ <;> rw [h] <;> omega

/-- C5: when the bookmark file is absent, bootstrap creates a record
with day index 0, `last_updated = now`, and the requested translation;
it fails (with the missing-translation `ValueError`) exactly when the
requested translation is empty. -/
theorem create_bookmark_spec (args : Args) (now : Int) :
    (isOkB (create_bookmark args now) = true ↔ args.translation ≠ "") ∧
    (∀ bm, create_bookmark args now = .ok bm →
      bm.day_index_number = 0 ∧ bm.last_updated = now ∧
        bm.translation = args.translation) := by
  constructor
  · by_cases h : args.translation = "" <;> simp [create_bookmark, h, isOkB]
  · intro bm hbm
    by_cases h : args.translation = ""
    · simp [create_bookmark, h] at hbm
    · simp [create_bookmark, h] at hbm
      subst hbm
      exact ⟨rfl, rfl, rfl⟩

/-- C5 witness: with the bookmark file absent and translation `"ESV"`
supplied, bootstrap succeeds and creates `{day_index 0, last_updated
now, translation "ESV"}`. -/
theorem create_bookmark_spec_witness :
    isOkB (create_bookmark { translation := "ESV", save_settings := false } 1000) = true ∧
    ({ day_index_number := 0, last_updated := 1000, translation := "ESV" } :
        Bookmark).day_index_number = 0 ∧
    (create_bookmark { translation := "ESV", save_settings := false } 1000 =
      .ok { day_index_number := 0, last_updated := 1000, translation := "ESV" }) := by
  have h := create_bookmark_spec { translation := "ESV", save_settings := false } 1000
  exact ⟨h.1.2 (by decide), rfl, rfl⟩

/-- C3: with the save-settings flag off, an invocation whose computed
elapsed days is 0 (same calendar day as `last_updated`) performs no
write and leaves every field of the bookmark unchanged; an invocation
on a later calendar day starting from day index 0 advances the index
to exactly 1 (and writes). -/
theorem update_bookmark_same_day_noop (args : Args) (bm : Bookmark)
    (hs : args.save_settings = false) :
    (∀ now : Int, dayOf now = dayOf bm.last_updated →
      update_bookmark args bm now = (bm, false)) ∧
    (∀ now : Int, dayOf bm.last_updated < dayOf now → bm.day_index_number = 0 →
      (update_bookmark args bm now).1.day_index_number = 1 ∧
        (update_bookmark args bm now).2 = true) := by
  constructor
  · intro now hday
    have hd : elapsed_days now bm.last_updated = 0 := by
      rw [elapsed_days_eq, hday]; ring
    simp [update_bookmark, hd, hs]
  · intro now hday hidx
    have hd : 0 < elapsed_days now bm.last_updated := by
      rw [elapsed_days_eq]; omega
    simp [update_bookmark, hs, hidx, hd]

/-- C3 witness: on the bookmark `{0, midnight of day 0, "NIV"}` an
update one hour later the same day changes nothing and writes nothing,
while an update the next calendar day advances the index to 1. -/
theorem update_bookmark_same_day_noop_witness :
    update_bookmark { translation := "ESV", save_settings := false }
        { day_index_number := 0, last_updated := 0, translation := "NIV" } 3600 =
      ({ day_index_number := 0, last_updated := 0, translation := "NIV" }, false) ∧
    (update_bookmark { translation := "ESV", save_settings := false }
        { day_index_number := 0, last_updated := 0, translation := "NIV" }
        90000).1.day_index_number = 1 := by
  have h := update_bookmark_same_day_noop
    { translation := "ESV", save_settings := false }
    { day_index_number := 0, last_updated := 0, translation := "NIV" } rfl
  exact ⟨h.1 3600 (by decide), (h.2 90000 (by decide) rfl).1⟩

/-- C6: with the save-settings flag on and zero elapsed days, the
update stores the requested translation and the current timestamp but
leaves the day index unchanged (and rewrites the file). -/
theorem update_bookmark_force_save_same_day (args : Args) (bm : Bookmark) (now : Int)
    (hs : args.save_settings = true)
    (hday : dayOf now = dayOf bm.last_updated) :
    (update_bookmark args bm now).1.translation = args.translation ∧
    (update_bookmark args bm now).1.last_updated = now ∧
    (update_bookmark args bm now).1.day_index_number = bm.day_index_number ∧
    (update_bookmark args bm now).2 = true := by
  have hd : elapsed_days now bm.last_updated = 0 := by
    rw [elapsed_days_eq, hday]; ring
  simp [update_bookmark, hd, hs]

/-- C6 witness: a same-day forced save on `{7, midnight of day 0,
"NIV"}` with requested translation `"KJV"` stores `"KJV"` and the new
timestamp while keeping day index 7. -/
theorem update_bookmark_force_save_same_day_witness :
    (update_bookmark { translation := "KJV", save_settings := true }
        { day_index_number := 7, last_updated := 0, translation := "NIV" }
        3600).1.translation = "KJV" ∧
    (update_bookmark { translation := "KJV", save_settings := true }
        { day_index_number := 7, last_updated := 0, translation := "NIV" }
        3600).1.day_index_number = 7 := by
  have h := update_bookmark_force_save_same_day
    { translation := "KJV", save_settings := true }
    { day_index_number := 7, last_updated := 0, translation := "NIV" }
    3600 rfl (by decide)
  exact ⟨h.1, h.2.2.1⟩

/-- C10: `update_bookmark` never checks the requested translation, so a
forced save with an empty translation succeeds (the record is written)
and persists the empty string as the stored translation, overwriting
whatever was saved before. -/
theorem update_bookmark_force_save_empty (args : Args) (bm : Bookmark) (now : Int)
    (hs : args.save_settings = true)
    (ht : args.translation = "") :
    (update_bookmark args bm now).2 = true ∧
    (update_bookmark args bm now).1.translation = "" := by
  simp [update_bookmark, hs, ht]

/-- C10 witness: a forced save with an empty translation on a bookmark
currently storing `"ESV"` writes the file and leaves `""` stored. -/
theorem update_bookmark_force_save_empty_witness :
    (update_bookmark { translation := "", save_settings := true }
        { day_index_number := 3, last_updated := 0, translation := "ESV" }
        3600).2 = true ∧
    (update_bookmark { translation := "", save_settings := true }
        { day_index_number := 3, last_updated := 0, translation := "ESV" }
        3600).1.translation = "" :=
  update_bookmark_force_save_empty
    { translation := "", save_settings := true }
    { day_index_number := 3, last_updated := 0, translation := "ESV" }
    3600 rfl rfl

/-! ## Iterated daily advances (the wrap boundary) -/

/-- The CLI state for a plain daily run: no `-s`, translation `"ESV"`. -/
def argsDaily : Args := { translation := "ESV", save_settings := false }

/-- The freshly bootstrapped bookmark, created at the midnight instant
of day 0. -/
def initialBookmark : Bookmark :=
  { day_index_number := 0, last_updated := 0, translation := "ESV" }

/-- One application of the index-advance rule of `update_bookmark`
(lines 186–189): increment below 365, otherwise reset to 0. -/
def advanceIndex (i : Nat) : Nat := if i < 365 then i + 1 else 0

/-- The index-advance rule iterated `n` times from 0. -/
def iterIndex : Nat → Nat
  | 0 => 0
  | n + 1 => advanceIndex (iterIndex n)

/-- The bookmark after `n` consecutive daily invocations of
`update_bookmark` without the save flag, the `k`-th invocation
happening at the midnight instant of calendar day `k`. -/
def run_daily_updates (bm : Bookmark) : Nat → Bookmark
  | 0 => bm
  | n + 1 =>
      (update_bookmark argsDaily (run_daily_updates bm n) (((n : Int) + 1) * 86400)).1

lemma dayOf_mul (k : Int) : dayOf (k * 86400) = k := by
  unfold dayOf
  show k * 86400 / 86400 = k
  exact Int.mul_ediv_cancel k (by norm_num)

lemma update_daily_step (bm : Bookmark) (n : Nat)
    (h : bm.last_updated = (n : Int) * 86400) :
    (update_bookmark argsDaily bm (((n : Int) + 1) * 86400)).1 =
      { day_index_number := advanceIndex bm.day_index_number,
        last_updated := ((n : Int) + 1) * 86400,
        translation := bm.translation } := by
  have hd : elapsed_days (((n : Int) + 1) * 86400) bm.last_updated = 1 := by
    rw [elapsed_days_eq, h, dayOf_mul, dayOf_mul]; ring
  by_cases hlt : bm.day_index_number < 365 <;>
    simp [update_bookmark, hd, argsDaily, advanceIndex, hlt]

lemma run_daily_spec (n : Nat) :
    (run_daily_updates initialBookmark n).last_updated = (n : Int) * 86400 ∧
    (run_daily_updates initialBookmark n).day_index_number = iterIndex n := by
  induction n with
  | zero => exact ⟨by simp [run_daily_updates, initialBookmark], rfl⟩
  | succ n ih =>
      have hstep := update_daily_step (run_daily_updates initialBookmark n) n ih.1
      unfold run_daily_updates
      rw [hstep]
      refine ⟨rfl, ?_⟩
      show advanceIndex (run_daily_updates initialBookmark n).day_index_number =
        iterIndex (n + 1)
      rw [ih.2]
      rfl

lemma iterIndex_eq_self : ∀ n, n ≤ 365 → iterIndex n = n
  | 0, _ => rfl
  | n + 1, h => by
      have hn : iterIndex n = n := iterIndex_eq_self n (by omega)
      show advanceIndex (iterIndex n) = n + 1
      rw [hn]
      unfold advanceIndex
      rw [if_pos (by omega)]

lemma iterIndex_366 : iterIndex 366 = 0 := by
  show advanceIndex (iterIndex 365) = 0
  rw [iterIndex_eq_self 365 (by omega)]
  unfold advanceIndex
  rw [if_neg (by omega)]

/-- C2 counterexample: 365 consecutive daily advances from day index 0
do NOT return the index to 0 — after them it stands at 365 (the wrap
to 0 only happens on the following, 366th, advance). -/
theorem daily_wrap_365_counterexample :
    (run_daily_updates initialBookmark 365).day_index_number ≠ 0 := by
  rw [(run_daily_spec 365).2, iterIndex_eq_self 365 (by omega)]
  omega

/-- C2, amended: starting from day index 0, under the advance rule
"increment when below 365, else reset to 0" the index after 365
consecutive daily advances is 365, and it first returns to 0 after 366
consecutive daily advances. -/
theorem daily_wrap_at_366 :
    (run_daily_updates initialBookmark 365).day_index_number = 365 ∧
    (run_daily_updates initialBookmark 366).day_index_number = 0 := by
  rw [(run_daily_spec 365).2, (run_daily_spec 366).2]
  exact ⟨iterIndex_eq_self 365 (by omega), iterIndex_366⟩

/-! ## Reachable day-index range -/

/-- A sequence of `update_bookmark` invocations, each with its own CLI
inputs and its own current time, applied to a starting bookmark. -/
def apply_updates (bm : Bookmark) : List (Args × Int) → Bookmark
  | [] => bm
  | op :: ops => apply_updates (update_bookmark op.1 bm op.2).1 ops

lemma update_bookmark_index_le (args : Args) (bm : Bookmark) (now : Int)
    (h : bm.day_index_number ≤ 365) :
    (update_bookmark args bm now).1.day_index_number ≤ 365 := by
  simp only [update_bookmark]
  by_cases h2 : elapsed_days now bm.last_updated > 0 <;>
    by_cases h3 : bm.day_index_number < 365 <;>
      by_cases h1 : args.save_settings = true <;>
        simp [h1, h2, h3] <;> omega

lemma apply_updates_index_le (ops : List (Args × Int)) :
    ∀ bm : Bookmark, bm.day_index_number ≤ 365 →
      (apply_updates bm ops).day_index_number ≤ 365 := by
  induction ops with
  | nil => intro bm h; exact h
  | cons op ops ih =>
      intro bm h
      exact ih _ (update_bookmark_index_le op.1 bm op.2 h)

/-- C8, amended: starting from a bootstrap record, the persisted day
index stays in the inclusive range [0, 365] across every sequence of
update invocations (it is a `Nat`, so 0 is the lower bound).  The
spec's claimed upper bound 364 is not an invariant: the index reaches
365 before wrapping. -/
theorem bookmark_index_invariant (args0 : Args) (now0 : Int) (bm : Bookmark)
    (hcreate : create_bookmark args0 now0 = .ok bm)
    (ops : List (Args × Int)) :
    (apply_updates bm ops).day_index_number ≤ 365 := by
  have h0 : bm.day_index_number = 0 := by
    by_cases h : args0.translation = ""
    · simp [create_bookmark, h] at hcreate
    · simp [create_bookmark, h] at hcreate
      rw [← hcreate]
  exact apply_updates_index_le ops bm (by omega)

/-- C8 witness: from a concrete bootstrap, one ordinary next-day update
keeps the day index within [0, 365]. -/
theorem bookmark_index_invariant_witness :
    (apply_updates { day_index_number := 0, last_updated := 0, translation := "ESV" }
      [({ translation := "KJV", save_settings := true }, 90000)]).day_index_number ≤ 365 :=
  bookmark_index_invariant { translation := "ESV", save_settings := false } 0
    { day_index_number := 0, last_updated := 0, translation := "ESV" }
    rfl
    [({ translation := "KJV", save_settings := true }, 90000)]

/-- C8 counterexample: the bootstrap record is reachable, and 365
ordinary daily updates from it leave the persisted day index at 365,
outside the claimed range [0, 364]. -/
theorem bookmark_index_365_counterexample :
    create_bookmark { translation := "ESV", save_settings := false } 0 =
      .ok initialBookmark ∧
    364 < (run_daily_updates initialBookmark 365).day_index_number := by
  refine ⟨rfl, ?_⟩
  rw [(run_daily_spec 365).2, iterIndex_eq_self 365 (by omega)]
  omega

/-! ## Daily Selector

`build_readings` returns the tuple `all_chapter_lists` of ten expanded
chapter lists; `print_year_of_readings` (lines 311–320) and
`print_todays_readings` (lines 331–340) both pick, for a day index `i`,
the reading `all_chapter_lists[j][i % len(all_chapter_lists[j])]` from
each of the ten lists. -/

structure BookSet where
  list_1 : List BibleChapter
  list_2 : List BibleChapter
  list_3 : List BibleChapter
  list_4 : List BibleChapter
  list_5 : List BibleChapter
  list_6 : List BibleChapter
  list_7 : List BibleChapter
  list_8 : List BibleChapter
  list_9 : List BibleChapter
  list_10 : List BibleChapter

/-- The ten sequences of a `BookSet` in tuple position order 0–9. -/
def seqs (bs : BookSet) : Fin 10 → List BibleChapter := fun j =>
  match j with
  | 0 => bs.list_1
  | 1 => bs.list_2
  | 2 => bs.list_3
  | 3 => bs.list_4
  | 4 => bs.list_5
  | 5 => bs.list_6
  | 6 => bs.list_7
  | 7 => bs.list_8
  | 8 => bs.list_9
  | 9 => bs.list_10

/-- One modular lookup `lst[i % len(lst)]`; `none` only when the list
is empty (where Python would raise `ZeroDivisionError`). -/
def select (seq : List BibleChapter) (i : Nat) : Option BibleChapter :=
  seq[i % seq.length]?

/-- The ten readings printed for day index `i`, written out
position by position exactly as in lines 311–320 and 331–340. -/
def daily_selection (bs : BookSet) (i : Nat) : List (Option BibleChapter) :=
  [select bs.list_1 i, select bs.list_2 i, select bs.list_3 i,
   select bs.list_4 i, select bs.list_5 i, select bs.list_6 i,
   select bs.list_7 i, select bs.list_8 i, select bs.list_9 i,
   select bs.list_10 i]

/-- C1: for any `BookSet` of ten non-empty sequences and any day index
`i ≥ 0` — whether the 0..364 of year mode or the bookmark's index in
daily mode — the selection yields exactly ten readings; the one from
sequence `j` is `sequence[j][i % length(sequence[j])]`, its modular
index lying strictly below the sequence's length. -/
theorem daily_selection_spec (bs : BookSet) (i : Nat)
    (h : ∀ j : Fin 10, (seqs bs j).length > 0) :
    (daily_selection bs i).length = 10 ∧
    ∀ j : Fin 10,
      i % (seqs bs j).length < (seqs bs j).length ∧
      (daily_selection bs i)[j.val]? =
        some ((seqs bs j)[i % (seqs bs j).length]?) ∧
      ((seqs bs j)[i % (seqs bs j).length]?).isSome = true := by
  refine ⟨rfl, ?_⟩
  intro j
  have hmod : i % (seqs bs j).length < (seqs bs j).length :=
    Nat.mod_lt i (h j)
  refine ⟨hmod, ?_, ?_⟩
  · fin_cases j <;> rfl
  · rw [List.getElem?_eq_getElem hmod]
    rfl

/-- C1 witness: on a concrete `BookSet` of ten singleton sequences,
day index 3 selects position `3 % 1 = 0` from each sequence. -/
theorem daily_selection_spec_witness :
    (daily_selection
      { list_1 := [{ book := "Matthew", chapter := 1 }],
        list_2 := [{ book := "Genesis", chapter := 1 }],
        list_3 := [{ book := "Romans", chapter := 1 }],
        list_4 := [{ book := "James", chapter := 1 }],
        list_5 := [{ book := "Job", chapter := 1 }],
        list_6 := [{ book := "Psalms", chapter := 1 }],
        list_7 := [{ book := "Proverbs", chapter := 1 }],
        list_8 := [{ book := "Joshua", chapter := 1 }],
        list_9 := [{ book := "Isaiah", chapter := 1 }],
        list_10 := [{ book := "Acts", chapter := 1 }] } 3).length = 10 ∧
    (daily_selection
      { list_1 := [{ book := "Matthew", chapter := 1 }],
        list_2 := [{ book := "Genesis", chapter := 1 }],
        list_3 := [{ book := "Romans", chapter := 1 }],
        list_4 := [{ book := "James", chapter := 1 }],
        list_5 := [{ book := "Job", chapter := 1 }],
        list_6 := [{ book := "Psalms", chapter := 1 }],
        list_7 := [{ book := "Proverbs", chapter := 1 }],
        list_8 := [{ book := "Joshua", chapter := 1 }],
        list_9 := [{ book := "Isaiah", chapter := 1 }],
        list_10 := [{ book := "Acts", chapter := 1 }] } 3)[0]? =
      some (some { book := "Matthew", chapter := 1 }) := by
  have h := daily_selection_spec
    { list_1 := [{ book := "Matthew", chapter := 1 }],
      list_2 := [{ book := "Genesis", chapter := 1 }],
      list_3 := [{ book := "Romans", chapter := 1 }],
      list_4 := [{ book := "James", chapter := 1 }],
      list_5 := [{ book := "Job", chapter := 1 }],
      list_6 := [{ book := "Psalms", chapter := 1 }],
      list_7 := [{ book := "Proverbs", chapter := 1 }],
      list_8 := [{ book := "Joshua", chapter := 1 }],
      list_9 := [{ book := "Isaiah", chapter := 1 }],
      list_10 := [{ book := "Acts", chapter := 1 }] } 3
    (by intro j; fin_cases j <;> decide)
  refine ⟨h.1, ?_⟩
  have h2 := (h.2 (⟨0, by norm_num⟩ : Fin 10)).2.1
  simpa [seqs, select] using h2

end Horner
